import Mathlib

/-!
Verification of the Domain API base client (`src/domain/base.py`,
class `BaseDomainClient`) against its specification.

The client resolves an endpoint to a required scope, finds or mints a
bearer token covering that scope, caches tokens, and issues HTTP GETs.
The package classes (`AgentListingsPackage`, `PropertyLocationsPackage`)
live in `domain/packages.py`, which is not part of the sources under
verification; their behaviour (authorized scopes, token minting, the
response of the HTTP transport) is modelled from the specification and
marked as such below.
-/

namespace DomainClient

/-- The two plan kinds.  `domain/base.py` keys its `_auth` dict by the two
package classes imported from `domain.packages`:
`AgentListingsPackage` and `PropertyLocationsPackage`. -/
inductive PlanKind where
  | agentListings
  | propertyLocations
deriving DecidableEq, Repr

/-- Modelled from the spec: the `available_scopes` attribute of each package
class in `domain/packages.py` (not under the verified sources).  The spec
says each package is "authorized for a fixed set of scopes"; the
agents/listings package grants the agencies and listings scopes (the spec
calls `api_agencies_read` an agent-only scope), the property/locations
package grants the remaining scopes of the endpoint table. -/
def available_scopes : PlanKind → List String
  | .agentListings => ["api_agencies_read", "api_listings_read"]
  | .propertyLocations =>
      ["api_addresslocators_read", "api_demographics_read",
       "api_properties_read", "api_propertyreports_read",
       "api_salesresults_read", "api_suburbperformance_read"]

/-- An authenticated HTTP session handle, as exposed by a minted token
(`token.session` in `base.py`).  Modelled from the spec: a session is the
ready-to-use handle produced by token acquisition from a plan's credential
pair and the requested scope. -/
structure Session where
  plan : PlanKind
  clientId : String
  clientSecret : String
  scope : String
deriving DecidableEq, Repr

/-- A token, as produced by `plan(client_id, client_secret, scope)` in
`domain/packages.py`.  Modelled from the spec: a token is produced by a
plan for a specific scope, "carries the set of scopes it is valid for"
(`scopes`) and an authenticated `session`. -/
structure Token where
  plan : PlanKind
  scope : String
  scopes : List String
  session : Session
deriving DecidableEq, Repr

/-- An HTTP response as seen through the transport.  Only its status code
matters to `base.py` (`r.ok`, `r.raise_for_status()`). -/
structure Response where
  status : Nat
deriving DecidableEq, Repr

/-- Modelled from the spec: a response is `ok` exactly when its status is a
2xx success status ("Remote HTTP error (non-2xx) → propagated as an
HTTP-error exception").  The transport is an external collaborator. -/
def Response.ok (r : Response) : Bool :=
  200 ≤ r.status && r.status < 300

/-- The errors raised by the client.  `valueErrorNoScope` and
`valueErrorNoPlan` are the two `ValueError`s of `base.py`;
`missingCredentials` is the configuration error raised by a package when
asked to mint a token without a full credential pair (modelled from the
spec); `httpError` is the `raise_for_status` error carrying the response. -/
inductive DomainError where
  | valueErrorNoScope (referencePoint : String)
  | valueErrorNoPlan
  | missingCredentials (plan : PlanKind)
  | httpError (r : Response)
deriving DecidableEq, Repr

/-- Modelled from the spec: minting a token, i.e. the package constructor
`plan(client_id, client_secret, scope)` of `domain/packages.py`.  With a
full credential pair it acquires a token granted exactly the requested
scope ("requesting two different scopes yields two tokens even from the
same plan") together with its session; with a missing id or secret the
acquisition fails with a configuration error ("deferred failure occurs
only when a request actually needs that plan's scope"). -/
def mintToken (p : PlanKind) (clientId clientSecret : Option String)
    (scope : String) : Except DomainError Token :=
  match clientId, clientSecret with
  | some i, some s =>
      .ok { plan := p, scope := scope, scopes := [scope],
            session := { plan := p, clientId := i, clientSecret := s,
                         scope := scope } }
  | _, _ => .error (.missingCredentials p)

/-- The state of a `BaseDomainClient`: the credential pair per plan
(`self._auth`) and the token cache (`self._tokens`). -/
structure Client where
  auth_agent : Option String × Option String
  auth_property : Option String × Option String
  tokens : List Token
deriving DecidableEq, Repr

/-- `self._auth` as the insertion-ordered association of plan to credential
pair: `{AgentListingsPackage: auth_agent, PropertyLocationsPackage:
auth_property}` (`base.py` lines 48–51; Python dicts iterate in insertion
order). -/
def Client.plans (c : Client) : List (PlanKind × (Option String × Option String)) :=
  [(.agentListings, c.auth_agent), (.propertyLocations, c.auth_property)]

/-- `BaseDomainClient._API_URL`. -/
def API_URL : String := "https://api.domain.com.au"

/-- `BaseDomainClient._API_VERSION`. -/
def API_VERSION : Nat := 1

/-- `BaseDomainClient.__init__` (`base.py` lines 17–60).  `env` models
`os.environ.get`.  Each `auth` argument defaults to the corresponding pair
of environment variables; the result is the constructed client together
with whether the "No API credentials found!" warning was logged, which
happens exactly when every credential pair contains a `None`. -/
def initClient (env : String → Option String)
    (auth_property auth_agent : Option (Option String × Option String)) :
    Client × Bool :=
  let ap := match auth_property with
    | some a => a
    | none => (env "API_DOMAIN_PROPERTY_CLIENT_ID",
               env "API_DOMAIN_PROPERTY_CLIENT_SECRET")
  let aa := match auth_agent with
    | some a => a
    | none => (env "API_DOMAIN_AGENT_CLIENT_ID",
               env "API_DOMAIN_AGENT_CLIENT_SECRET")
  let warned := !((aa.1.isSome && aa.2.isSome) || (ap.1.isSome && ap.2.isSome))
  ({ auth_agent := aa, auth_property := ap, tokens := [] }, warned)

/-- `end_point.lstrip("/").split("/")[0]` (`base.py` line 77): strip every
leading `/`, then the characters up to the first remaining `/` form the
first path segment. -/
def referencePoint (end_point : String) : String :=
  ⟨(end_point.data.dropWhile (· = '/')).takeWhile (· ≠ '/')⟩

/-- The fixed segment → scope table of `_scope_required`
(`base.py` lines 78–90). -/
def reference_point_scopes : List (String × String) :=
  [("addressLocators", "api_addresslocators_read"),
   ("agencies", "api_agencies_read"),
   ("agents", "api_agencies_read"),
   ("me", "api_agencies_read"),
   ("demographics", "api_demographics_read"),
   ("disclaimers", "api_properties_read"),
   ("listings", "api_listings_read"),
   ("properties", "api_properties_read"),
   ("propertyReports", "api_propertyreports_read"),
   ("salesResults", "api_salesresults_read"),
   ("suburbPerformanceStatistics", "api_suburbperformance_read")]

/-- `BaseDomainClient._scope_required` (`base.py` lines 69–96): look the
first path segment up in the table; `ValueError` when absent. -/
def scope_required (end_point : String) : Except DomainError String :=
  match reference_point_scopes.lookup (referencePoint end_point) with
  | some scope => .ok scope
  | none => .error (.valueErrorNoScope (referencePoint end_point))

/-- `BaseDomainClient._api_url` (`base.py` lines 99–106):
`"{}/v{}/{}".format(self._API_URL, self._API_VERSION, end_point)`. -/
def api_url (end_point : String) : String :=
  API_URL ++ "/v" ++ toString API_VERSION ++ "/" ++ end_point

/-- The scan of the token cache in `_prepare_request` (`base.py` lines
121–122): `for token in self.tokens: if scope in token.scopes: break`,
i.e. the first cached token whose `scopes` contain the required scope. -/
def findCachedToken (tokens : List Token) (scope : String) : Option Token :=
  tokens.find? (fun t => scope ∈ t.scopes)

/-- The plan scan of `_prepare_request` (`base.py` lines 125–129):
`for plan, creds in self._auth.items(): if scope in plan.available_scopes`,
i.e. the first plan (in insertion order) whose `available_scopes` contain
the required scope, together with its credential pair. -/
def findPlan (plans : List (PlanKind × (Option String × Option String)))
    (scope : String) : Option (PlanKind × (Option String × Option String)) :=
  plans.find? (fun pc => scope ∈ available_scopes pc.1)

/-- `BaseDomainClient._prepare_request` (`base.py` lines 109–133).  State
passing makes the mutation of `self._tokens` explicit: on success the
session handle and full URL are returned together with the updated client.
An exception (unrecognised scope, no plan with the scope, token
acquisition failure inside `plan(...)` before the `append` completes)
happens before any mutation, so the caller keeps the unchanged client. -/
def prepare_request (c : Client) (end_point : String) :
    Except DomainError ((Session × String) × Client) :=
  match scope_required end_point with
  | .error err => .error err
  | .ok scope =>
    match findCachedToken c.tokens scope with
    | some token => .ok ((token.session, api_url end_point), c)
    | none =>
      match findPlan c.plans scope with
      | some (plan, creds) =>
        match mintToken plan creds.1 creds.2 scope with
        | .error err => .error err
        | .ok token =>
            .ok ((token.session, api_url end_point),
                 { c with tokens := c.tokens ++ [token] })
      | none => .error .valueErrorNoPlan

/-- `BaseDomainClient._api_request` (`base.py` lines 136–149).  `get`
models the external transport `session.get(url, **kwargs)` (the keyword
options are opaque to the client and folded into `get`).  A non-ok
response is raised via `raise_for_status`, carrying the response.  The
second component is the client state after the call: note that a token
minted by `_prepare_request` stays cached even when the subsequent GET
fails, so the updated state survives an HTTP error. -/
def api_request (get : Session → String → Response) (c : Client)
    (end_point : String) : Except DomainError Response × Client :=
  match prepare_request c end_point with
  | .error err => (.error err, c)
  | .ok ((session, url), c') =>
    let r := get session url
    if r.ok then (.ok r, c') else (.error (.httpError r), c')

/-- The client state after one `prepare_request` call: the updated state
on success, the unchanged state when an exception was raised. -/
def afterPrepare (c : Client) (end_point : String) : Client :=
  match prepare_request c end_point with
  | .ok (_, c') => c'
  | .error _ => c

/-- The client state after one `request` (`_api_request`) call. -/
def afterRequest (get : Session → String → Response) (c : Client)
    (end_point : String) : Client :=
  (api_request get c end_point).2

/-- Run a sequence of `prepare_request` calls, returning the final client
state together with the list of required scopes of the calls that
succeeded, in order. -/
def runSeq (c : Client) : List String → Client × List String
  | [] => (c, [])
  | e :: es =>
    match prepare_request c e with
    | .ok (_, c') =>
      let rest := runSeq c' es
      match scope_required e with
      | .ok s => (rest.1, s :: rest.2)
      | .error _ => rest
    | .error _ => runSeq c es

/-- Tokens as they occur in a client's cache: each one was minted for its
`scope` and is granted exactly that scope, and no two cached tokens were
minted for the same scope. -/
def GoodTokens (ts : List Token) : Prop :=
  (∀ t ∈ ts, t.scopes = [t.scope]) ∧ (ts.map Token.scope).Nodup

/-- A fresh client holding credentials for both packages, passed as
explicit construction arguments. -/
def clientBoth : Client :=
  (initClient (fun _ => none) (some (some "prop_id", some "prop_secret"))
    (some (some "agent_id", some "agent_secret"))).1

/-- A fresh client holding only property-package credentials; the agent
pair falls back to an empty environment. -/
def clientPropertyOnly : Client :=
  (initClient (fun _ => none) (some (some "prop_id", some "prop_secret"))
    none).1

/-- A fresh client holding only agent-package credentials. -/
def clientAgentOnly : Client :=
  (initClient (fun _ => none) none
    (some (some "agent_id", some "agent_secret"))).1

/-- The token `clientAgentOnly` and `clientBoth` mint for the
`api_listings_read` scope. -/
def listingsToken : Token :=
  { plan := .agentListings, scope := "api_listings_read",
    scopes := ["api_listings_read"],
    session := { plan := .agentListings, clientId := "agent_id",
                 clientSecret := "agent_secret",
                 scope := "api_listings_read" } }

/-- `clientBoth` after one successful request to a `listings` endpoint. -/
def clientBothAfterListings : Client :=
  { clientBoth with tokens := [listingsToken] }

/- ------------------------------------------------------------------ -/
/- Helper lemmas -/
/- ------------------------------------------------------------------ -/

theorem prepare_request_cached {c : Client} {e s : String} {t : Token}
    (hs : scope_required e = .ok s)
    (ht : findCachedToken c.tokens s = some t) :
    prepare_request c e = .ok ((t.session, api_url e), c) := by
  simp only [prepare_request, hs, ht]

theorem prepare_request_mint {c : Client} {e s : String} {p : PlanKind}
    {creds : Option String × Option String}
    (hs : scope_required e = .ok s)
    (ht : findCachedToken c.tokens s = none)
    (hp : findPlan c.plans s = some (p, creds)) :
    prepare_request c e =
      (mintToken p creds.1 creds.2 s).map
        (fun token => ((token.session, api_url e),
          { c with tokens := c.tokens ++ [token] })) := by
  simp only [prepare_request, hs, ht, hp]
  cases mintToken p creds.1 creds.2 s <;> rfl

theorem prepare_request_noPlan {c : Client} {e s : String}
    (hs : scope_required e = .ok s)
    (ht : findCachedToken c.tokens s = none)
    (hp : findPlan c.plans s = none) :
    prepare_request c e = .error .valueErrorNoPlan := by
  simp only [prepare_request, hs, ht, hp]

theorem prepare_request_scopeError {c : Client} {e : String}
    {err : DomainError} (hs : scope_required e = .error err) :
    prepare_request c e = .error err := by
  simp only [prepare_request, hs]

/-- Full inversion of a successful `prepare_request`: it either reused the
first cached token covering the scope, or appended a freshly minted one. -/
theorem prepare_request_ok_inv {c : Client} {e : String}
    {r : Session × String} {c' : Client}
    (h : prepare_request c e = .ok (r, c')) :
    ∃ s, scope_required e = .ok s ∧
      ((∃ t, findCachedToken c.tokens s = some t ∧ c' = c ∧
          r = (t.session, api_url e)) ∨
       (findCachedToken c.tokens s = none ∧
        ∃ p creds t, findPlan c.plans s = some (p, creds) ∧
          mintToken p creds.1 creds.2 s = .ok t ∧
          c' = { c with tokens := c.tokens ++ [t] } ∧
          r = (t.session, api_url e))) := by
  unfold prepare_request at h
  split at h
  · exact absurd h (by simp)
  next s hs =>
    split at h
    next t ht =>
      simp only [Except.ok.injEq, Prod.mk.injEq] at h
      exact ⟨s, hs, .inl ⟨t, ht, h.2.symm, h.1.symm⟩⟩
    next ht =>
      split at h
      next p creds hp =>
        split at h
        · exact absurd h (by simp)
        next t hm =>
          simp only [Except.ok.injEq, Prod.mk.injEq] at h
          exact ⟨s, hs, .inr ⟨ht, p, creds, t, hp, hm, h.2.symm, h.1.symm⟩⟩
      next hp => exact absurd h (by simp)

theorem table_lookup_of_mem {k v : String}
    (h : (k, v) ∈ reference_point_scopes) :
    reference_point_scopes.lookup k = some v := by
  simp only [reference_point_scopes, List.mem_cons, List.not_mem_nil,
    or_false] at h
  rcases h with h|h|h|h|h|h|h|h|h|h|h <;>
    (injection h with h1 h2; subst h1; subst h2; rfl)

theorem table_lookup_of_not_mem {k : String}
    (h : k ∉ reference_point_scopes.map Prod.fst) :
    reference_point_scopes.lookup k = none := by
  have : ∀ l : List (String × String), k ∉ l.map Prod.fst →
      l.lookup k = none := by
    intro l
    induction l with
    | nil => intro _; rfl
    | cons kv l ih =>
      intro hk
      obtain ⟨k', v'⟩ := kv
      simp only [List.map_cons, List.mem_cons] at hk
      push_neg at hk
      rw [List.lookup_cons]
      have hne : (k == k') = false := beq_false_of_ne hk.1
      rw [hne]
      exact ih hk.2
  exact this reference_point_scopes h

theorem warn_flag_iff (aa ap : Option String × Option String) :
    (!((aa.1.isSome && aa.2.isSome) || (ap.1.isSome && ap.2.isSome))) = true ↔
      ((aa.1 = none ∨ aa.2 = none) ∧ (ap.1 = none ∨ ap.2 = none)) := by
  obtain ⟨a, b⟩ := aa
  obtain ⟨c, d⟩ := ap
  cases a <;> cases b <;> cases c <;> cases d <;> simp

/-- Minting from a credential pair either fails on a missing component
with the plan's configuration error, or succeeds with the token built
from the pair and the requested scope, granted exactly that scope. -/
theorem mint_result_cases (p : PlanKind) (creds : Option String × Option String)
    (s : String) :
    (mintToken p creds.1 creds.2 s = .error (.missingCredentials p)) ∨
    (∃ i sec, creds = (some i, some sec) ∧
      mintToken p creds.1 creds.2 s = .ok
        { plan := p, scope := s, scopes := [s],
          session := { plan := p, clientId := i, clientSecret := sec,
                       scope := s } }) := by
  obtain ⟨ci, cs⟩ := creds
  cases ci <;> cases cs <;> simp [mintToken]

theorem findPlan_agent (c : Client) (s : String)
    (h : s ∈ available_scopes .agentListings) :
    findPlan c.plans s = some (.agentListings, c.auth_agent) := by
  simp [findPlan, Client.plans, List.find?, h]

theorem findPlan_property (c : Client) (s : String)
    (h1 : s ∉ available_scopes .agentListings)
    (h2 : s ∈ available_scopes .propertyLocations) :
    findPlan c.plans s = some (.propertyLocations, c.auth_property) := by
  simp [findPlan, Client.plans, List.find?, h1, h2]

theorem findPlan_eq_none_iff (c : Client) (s : String) :
    findPlan c.plans s = none ↔
      (s ∉ available_scopes .agentListings ∧
       s ∉ available_scopes .propertyLocations) := by
  by_cases h1 : s ∈ available_scopes .agentListings <;>
    by_cases h2 : s ∈ available_scopes .propertyLocations <;>
    simp [findPlan, Client.plans, List.find?, h1, h2]

/-- When every cached token is granted exactly its minted scope, the cache
scan misses exactly when no cached token was minted for the scope. -/
theorem findCached_none_iff {ts : List Token} {s : String}
    (hg : ∀ t ∈ ts, t.scopes = [t.scope]) :
    findCachedToken ts s = none ↔ s ∉ ts.map Token.scope := by
  unfold findCachedToken
  rw [List.find?_eq_none]
  constructor
  · intro h hmem
    obtain ⟨t, htmem, hts⟩ := List.mem_map.mp hmem
    exact h t htmem (by simp [hg t htmem, hts])
  · intro h t htmem hp
    rw [decide_eq_true_eq, hg t htmem, List.mem_singleton] at hp
    exact h (hp ▸ List.mem_map_of_mem Token.scope htmem)

/-- The client state after `_api_request` is the state after its
`_prepare_request` call: the HTTP outcome never rolls a minted token
back. -/
theorem api_request_state (get : Session → String → Response) (c : Client)
    (e : String) : (api_request get c e).2 = afterPrepare c e := by
  unfold api_request afterPrepare
  cases h : prepare_request c e with
  | error err => rfl
  | ok v =>
    obtain ⟨⟨sess, url⟩, c'⟩ := v
    dsimp only
    split <;> rfl

theorem response_ok_iff (r : Response) :
    r.ok = true ↔ (200 ≤ r.status ∧ r.status < 300) := by
  simp [Response.ok]

/- ------------------------------------------------------------------ -/
/- Claims -/
/- ------------------------------------------------------------------ -/

/-- C6: for every endpoint string `e`, `_api_url` returns exactly
`"https://api.domain.com.au/v1/"` followed by `e`; in particular on
`"listings/123"` it returns
`"https://api.domain.com.au/v1/listings/123"`. -/
theorem c6_api_url_concatenation :
    (∀ e, api_url e = "https://api.domain.com.au/v1/" ++ e) ∧
    api_url "listings/123" = "https://api.domain.com.au/v1/listings/123" :=
  ⟨fun _ => rfl, rfl⟩

/-- Witness for C6 at the endpoint `"agencies/1"`. -/
theorem c6_api_url_concatenation_witness :
    api_url "agencies/1" = "https://api.domain.com.au/v1/" ++ "agencies/1" :=
  c6_api_url_concatenation.1 "agencies/1"

/-- C10: for an endpoint with leading slashes, `_scope_required` strips
all of them and resolves the scope, but `_api_url` performs no stripping,
so `_prepare_request` succeeds and returns a URL with a double slash after
the version segment. -/
theorem c10_leading_slash_double_slash_url :
    scope_required "/listings/123" = .ok "api_listings_read" ∧
    scope_required "///listings/123" = .ok "api_listings_read" ∧
    api_url "/listings/123" = "https://api.domain.com.au/v1//listings/123" ∧
    prepare_request clientAgentOnly "/listings/123" =
      .ok ((listingsToken.session, "https://api.domain.com.au/v1//listings/123"),
           { clientAgentOnly with tokens := [listingsToken] }) :=
  ⟨rfl, rfl, rfl, rfl⟩

/-- C5: a client configured only with property-package credentials (no
agent credentials from arguments or environment) fails fast with a
missing-credentials configuration error on a request to an endpoint
requiring the agent-only scope `api_agencies_read`, leaving the client
unchanged. -/
theorem c5_agent_scope_without_agent_credentials :
    scope_required "agents/foo" = .ok "api_agencies_read" ∧
    clientPropertyOnly.auth_agent = (none, none) ∧
    prepare_request clientPropertyOnly "agents/foo" =
      .error (.missingCredentials .agentListings) ∧
    afterPrepare clientPropertyOnly "agents/foo" = clientPropertyOnly :=
  ⟨rfl, rfl, rfl, rfl⟩

/-- C7: construction always succeeds (the constructor is total, returning
a client with an empty token cache), and the warning is emitted if and
only if every plan's resolved credential pair has a missing component. -/
theorem c7_construction_warning (env : String → Option String)
    (auth_property auth_agent : Option (Option String × Option String)) :
    (initClient env auth_property auth_agent).1.tokens = [] ∧
    ((initClient env auth_property auth_agent).2 = true ↔
      (((initClient env auth_property auth_agent).1.auth_agent.1 = none ∨
        (initClient env auth_property auth_agent).1.auth_agent.2 = none) ∧
       ((initClient env auth_property auth_agent).1.auth_property.1 = none ∨
        (initClient env auth_property auth_agent).1.auth_property.2 = none))) := by
  cases auth_property <;> cases auth_agent <;>
    exact ⟨rfl, warn_flag_iff _ _⟩

/-- Witness for C7: with no credentials anywhere, construction still
returns a client and the warning fires. -/
theorem c7_construction_warning_witness :
    (initClient (fun _ => none) none none).1.tokens = [] ∧
    (initClient (fun _ => none) none none).2 = true :=
  ⟨(c7_construction_warning (fun _ => none) none none).1,
   (c7_construction_warning (fun _ => none) none none).2.mpr
     ⟨.inl rfl, .inl rfl⟩⟩

/-- C1: `_scope_required` returns the exact mapped scope from the fixed
eleven-entry table for any endpoint whose first path segment (after
stripping leading slashes) is a table key, and raises `ValueError` for any
endpoint whose first segment is not a key; it never defaults. -/
theorem c1_scope_required_table :
    reference_point_scopes.length = 11 ∧
    (∀ e scope, (referencePoint e, scope) ∈ reference_point_scopes →
      scope_required e = .ok scope) ∧
    (∀ e, referencePoint e ∉ reference_point_scopes.map Prod.fst →
      scope_required e = .error (.valueErrorNoScope (referencePoint e))) := by
  refine ⟨rfl, ?_, ?_⟩
  · intro e scope h
    unfold scope_required
    rw [table_lookup_of_mem h]
  · intro e h
    unfold scope_required
    rw [table_lookup_of_not_mem h]

/-- Witness for C1 at `"listings/123"` (a mapped segment) and `"bogus/1"`
(an unmapped segment). -/
theorem c1_scope_required_table_witness :
    scope_required "listings/123" = .ok "api_listings_read" ∧
    scope_required "bogus/1" = .error (.valueErrorNoScope "bogus") :=
  ⟨c1_scope_required_table.2.1 "listings/123" "api_listings_read" (by decide),
   c1_scope_required_table.2.2 "bogus/1" (by decide)⟩

/-- C4: for every response delivered by the transport's GET,
`_api_request` raises an HTTP-error exception carrying the response
whenever the status is non-2xx, and otherwise returns the response; a
non-2xx response is never returned silently. -/
theorem c4_non_2xx_raises (get : Session → String → Response) (c : Client)
    (e : String) (sess : Session) (url : String) (c' : Client)
    (h : prepare_request c e = .ok ((sess, url), c')) :
    (¬ (200 ≤ (get sess url).status ∧ (get sess url).status < 300) →
      api_request get c e = (.error (.httpError (get sess url)), c')) ∧
    ((200 ≤ (get sess url).status ∧ (get sess url).status < 300) →
      api_request get c e = (.ok (get sess url), c')) := by
  constructor <;> intro hok
  · have hb : (get sess url).ok = false := by
      rw [← Bool.not_eq_true, response_ok_iff]
      exact hok
    simp only [api_request, h]
    simp [hb]
  · have hb : (get sess url).ok = true := (response_ok_iff _).mpr hok
    simp only [api_request, h]
    simp [hb]

/-- Witness for C4: a 404 from the transport is raised as an HTTP error
carrying the response, a 200 is returned. -/
theorem c4_non_2xx_raises_witness :
    api_request (fun _ _ => ⟨404⟩) clientBoth "listings/123" =
      (.error (.httpError ⟨404⟩), clientBothAfterListings) ∧
    api_request (fun _ _ => ⟨200⟩) clientBoth "listings/123" =
      (.ok ⟨200⟩, clientBothAfterListings) :=
  ⟨(c4_non_2xx_raises (fun _ _ => ⟨404⟩) clientBoth "listings/123"
      listingsToken.session "https://api.domain.com.au/v1/listings/123"
      clientBothAfterListings rfl).1 (by decide),
   (c4_non_2xx_raises (fun _ _ => ⟨200⟩) clientBoth "listings/123"
      listingsToken.session "https://api.domain.com.au/v1/listings/123"
      clientBothAfterListings rfl).2 (by decide)⟩

/-- C9: in the no-cached-token path, the unsupported-scope `ValueError`
is raised iff no configured plan's `available_scopes` contain the
required scope; plan selection never checks credential presence, so a
covering plan with a `(None, None)` pair is still selected and its token
constructor is invoked with those `None` credentials (failing inside the
constructor, not with the unsupported-scope error). -/
theorem c9_plan_selection_ignores_credentials (c : Client) (e s : String)
    (hs : scope_required e = .ok s)
    (ht : findCachedToken c.tokens s = none) :
    (prepare_request c e = .error .valueErrorNoPlan ↔
      ∀ p ∈ [PlanKind.agentListings, PlanKind.propertyLocations],
        s ∉ available_scopes p) ∧
    (∀ p creds, findPlan c.plans s = some (p, creds) →
      prepare_request c e =
        (mintToken p creds.1 creds.2 s).map
          (fun t => ((t.session, api_url e),
            { c with tokens := c.tokens ++ [t] }))) ∧
    (c.auth_agent = (none, none) → s ∈ available_scopes .agentListings →
      prepare_request c e = .error (.missingCredentials .agentListings)) := by
  refine ⟨⟨?_, ?_⟩, fun p creds hp => prepare_request_mint hs ht hp, ?_⟩
  · intro h
    by_contra hcon
    push_neg at hcon
    obtain ⟨p, hp, hmem⟩ := hcon
    have hsome : ∃ pc, findPlan c.plans s = some pc := by
      by_cases hA : s ∈ available_scopes .agentListings
      · exact ⟨_, findPlan_agent c s hA⟩
      · rcases List.mem_cons.mp hp with rfl | hp2
        · exact absurd hmem hA
        rcases List.mem_cons.mp hp2 with rfl | hp3
        · exact ⟨_, findPlan_property c s hA hmem⟩
        · exact absurd hp3 (List.not_mem_nil p)
    obtain ⟨⟨p', creds'⟩, hfp⟩ := hsome
    have heq := prepare_request_mint hs ht hfp
    rw [h] at heq
    rcases mint_result_cases p' creds' s with hm | ⟨i, sec, _, hm⟩ <;>
      rw [hm] at heq <;> simp [Except.map] at heq
  · intro hall
    exact prepare_request_noPlan hs ht ((findPlan_eq_none_iff c s).mpr
      ⟨hall _ (by simp), hall _ (by simp)⟩)
  · intro haa hmem
    have heq := prepare_request_mint hs ht (findPlan_agent c s hmem)
    rw [haa] at heq
    simpa [mintToken, Except.map] using heq

/-- Witness for C9: a client with a `(None, None)` agent pair still
selects the agent plan for `api_agencies_read` and fails inside the token
constructor. -/
theorem c9_plan_selection_ignores_credentials_witness :
    prepare_request clientPropertyOnly "agents/foo" =
      .error (.missingCredentials .agentListings) :=
  (c9_plan_selection_ignores_credentials clientPropertyOnly "agents/foo"
      "api_agencies_read" rfl rfl).2.2 rfl (by decide)

/-- C3: with no cached token covering the scope, `_prepare_request`
iterates the plans in insertion order — the agent/listings plan first,
then the property/locations plan — mints from the first plan whose
`available_scopes` contain the scope a token built from that plan's
credential pair and the scope, appends it to the cache, and returns its
session with the fully-qualified URL; with no covering plan it raises the
unsupported-scope `ValueError`. -/
theorem c3_mint_from_first_covering_plan (c : Client) (e s : String)
    (hs : scope_required e = .ok s)
    (ht : findCachedToken c.tokens s = none) :
    c.plans = [(.agentListings, c.auth_agent),
               (.propertyLocations, c.auth_property)] ∧
    (s ∈ available_scopes .agentListings →
      findPlan c.plans s = some (.agentListings, c.auth_agent)) ∧
    (s ∉ available_scopes .agentListings →
      s ∈ available_scopes .propertyLocations →
      findPlan c.plans s = some (.propertyLocations, c.auth_property)) ∧
    (∀ p creds i sec, findPlan c.plans s = some (p, creds) →
      creds = (some i, some sec) →
      prepare_request c e =
        .ok ((({ plan := p, clientId := i, clientSecret := sec,
                 scope := s } : Session), api_url e),
             { c with tokens := c.tokens ++
                 [{ plan := p, scope := s, scopes := [s],
                    session := { plan := p, clientId := i,
                                 clientSecret := sec, scope := s } }] })) ∧
    (findPlan c.plans s = none →
      prepare_request c e = .error .valueErrorNoPlan) := by
  refine ⟨rfl, findPlan_agent c s, findPlan_property c s, ?_,
    fun hp => prepare_request_noPlan hs ht hp⟩
  intro p creds i sec hp hcreds
  have heq := prepare_request_mint hs ht hp
  rw [hcreds] at heq
  simpa [mintToken, Except.map] using heq

/-- Witness for C3: `clientBoth` mints a listings token from the agent
plan (the first covering plan) and appends it. -/
theorem c3_mint_from_first_covering_plan_witness :
    prepare_request clientBoth "listings/123" =
      .ok ((listingsToken.session, "https://api.domain.com.au/v1/listings/123"),
           clientBothAfterListings) :=
  (c3_mint_from_first_covering_plan clientBoth "listings/123"
      "api_listings_read" rfl rfl).2.2.2.1 .agentListings
    clientBoth.auth_agent "agent_id" "agent_secret" rfl rfl

/-- C8: across a client's lifetime the token cache grows monotonically:
each `prepare_request` or `request` call either leaves the cache
unchanged or appends exactly one token at its end, never removing,
replacing or reordering entries. -/
theorem c8_monotonic_token_cache (c : Client) (e : String)
    (get : Session → String → Response) :
    ((afterPrepare c e).tokens = c.tokens ∨
      ∃ t, (afterPrepare c e).tokens = c.tokens ++ [t]) ∧
    ((afterRequest get c e).tokens = c.tokens ∨
      ∃ t, (afterRequest get c e).tokens = c.tokens ++ [t]) := by
  have key : ∀ r (c' : Client), prepare_request c e = .ok (r, c') →
      c'.tokens = c.tokens ∨ ∃ t, c'.tokens = c.tokens ++ [t] := by
    intro r c' h
    obtain ⟨s, _, hcase⟩ := prepare_request_ok_inv h
    rcases hcase with ⟨t, _, rfl, _⟩ | ⟨_, p, creds, t, _, _, rfl, _⟩
    · exact .inl rfl
    · exact .inr ⟨t, rfl⟩
  have hprep : (afterPrepare c e).tokens = c.tokens ∨
      ∃ t, (afterPrepare c e).tokens = c.tokens ++ [t] := by
    unfold afterPrepare
    cases h : prepare_request c e with
    | error err => exact .inl rfl
    | ok v => exact key v.1 v.2 (by rw [h])
  refine ⟨hprep, ?_⟩
  rw [afterRequest, api_request_state]
  exact hprep

/-- Witness for C8 at a concrete client, endpoint and transport. -/
theorem c8_monotonic_token_cache_witness :
    (afterPrepare clientBoth "listings/123").tokens = clientBoth.tokens ∨
      ∃ t, (afterPrepare clientBoth "listings/123").tokens =
        clientBoth.tokens ++ [t] :=
  (c8_monotonic_token_cache clientBoth "listings/123" (fun _ _ => ⟨200⟩)).1

/-- A successful `prepare_request` preserves the cache discipline and adds
the required scope (and nothing else) to the set of cached scopes. -/
theorem prepare_ok_good {c : Client} {e s0 : String}
    {r : Session × String} {c' : Client}
    (hg : GoodTokens c.tokens)
    (hs : scope_required e = .ok s0)
    (h : prepare_request c e = .ok (r, c')) :
    GoodTokens c'.tokens ∧
    (∀ s, s ∈ c'.tokens.map Token.scope ↔
      (s ∈ c.tokens.map Token.scope ∨ s = s0)) := by
  obtain ⟨s1, hs1, hcase⟩ := prepare_request_ok_inv h
  rw [hs] at hs1
  injection hs1 with hs1
  subst hs1
  rcases hcase with ⟨t, htfound, rfl, _⟩ | ⟨hnone, p, creds, t, hp, hm, rfl, _⟩
  · refine ⟨hg, fun s => ⟨.inl, ?_⟩⟩
    rintro (hmem | rfl)
    · exact hmem
    · have htmem := List.mem_of_find?_eq_some htfound
      have hpt := List.find?_some htfound
      rw [decide_eq_true_eq, hg.1 t htmem, List.mem_singleton] at hpt
      exact hpt ▸ List.mem_map_of_mem Token.scope htmem
  · have ht_fields : t.scope = s0 ∧ t.scopes = [s0] := by
      rcases mint_result_cases p creds s0 with hm' | ⟨i, sec, _, hm'⟩ <;>
        rw [hm'] at hm
      · exact absurd hm (by simp)
      · injection hm with hm
        subst hm
        exact ⟨rfl, rfl⟩
    have hnotmem : s0 ∉ c.tokens.map Token.scope :=
      (findCached_none_iff hg.1).mp hnone
    refine ⟨⟨?_, ?_⟩, fun s => ?_⟩
    · intro u hu
      rcases List.mem_append.mp hu with hu | hu
      · exact hg.1 u hu
      · rw [List.mem_singleton] at hu
        subst hu
        rw [ht_fields.2, ht_fields.1]
    · rw [List.map_append]
      refine List.nodup_append.mpr ⟨hg.2, List.nodup_singleton _, ?_⟩
      intro s hsmem hssing
      simp only [List.map_cons, List.map_nil, List.mem_singleton] at hssing
      rw [hssing, ht_fields.1] at hsmem
      exact hnotmem hsmem
    · rw [List.map_append]
      simp only [List.mem_append, List.map_cons, List.map_nil,
        List.mem_singleton, ht_fields.1]

/-- Running a sequence of `prepare_request` calls preserves the cache
discipline, and the cached scopes afterwards are exactly the initially
cached scopes together with the scopes of the successful calls. -/
theorem runSeq_inv (es : List String) (c : Client)
    (hg : GoodTokens c.tokens) :
    GoodTokens (runSeq c es).1.tokens ∧
    (∀ s, s ∈ (runSeq c es).1.tokens.map Token.scope ↔
      (s ∈ c.tokens.map Token.scope ∨ s ∈ (runSeq c es).2)) := by
  induction es generalizing c with
  | nil => exact ⟨hg, fun s => by simp [runSeq]⟩
  | cons e es ih =>
    cases h : prepare_request c e with
    | error err =>
      have heq : runSeq c (e :: es) = runSeq c es := by
        simp [runSeq, h]
      rw [heq]
      exact ih c hg
    | ok v =>
      obtain ⟨r, c'⟩ := v
      obtain ⟨s0, hs0, _⟩ := prepare_request_ok_inv h
      obtain ⟨hg', hmem'⟩ := prepare_ok_good hg hs0 h
      have heq : runSeq c (e :: es) =
          ((runSeq c' es).1, s0 :: (runSeq c' es).2) := by
        simp [runSeq, h, hs0]
      rw [heq]
      obtain ⟨hgf, hmemf⟩ := ih c' hg'
      refine ⟨hgf, fun s => ?_⟩
      rw [hmemf s, hmem' s]
      simp only [List.mem_cons]
      tauto

/-- Two scope inventories with the same members, the first without
duplicates, have the first's length equal to the second's deduplicated
length. -/
theorem nodup_length_eq_dedup_length {ts ss : List String}
    (hnd : ts.Nodup) (hmem : ∀ s, s ∈ ts ↔ s ∈ ss) :
    ts.length = ss.dedup.length := by
  rw [← List.toFinset_card_of_nodup hnd, ← List.card_toFinset]
  congr 1
  ext a
  simp only [List.mem_toFinset]
  exact hmem a

/-- C2: under single-threaded use the cache holds at most one token per
distinct scope: a call whose required scope is covered by a cached token
leaves the client unchanged; a successful call for an uncovered scope
appends exactly one token, minted for and granted exactly that scope; and
after any sequence of calls on a freshly constructed client the cache
length equals the number of distinct scopes successfully requested. -/
theorem c2_one_token_per_scope :
    (∀ c e s, scope_required e = .ok s → (∃ t ∈ c.tokens, s ∈ t.scopes) →
      afterPrepare c e = c) ∧
    (∀ (c : Client) e s r (c' : Client), scope_required e = .ok s →
      (∀ t ∈ c.tokens, s ∉ t.scopes) →
      prepare_request c e = .ok (r, c') →
      ∃ t, c'.tokens = c.tokens ++ [t] ∧ t.scope = s ∧ t.scopes = [s]) ∧
    (∀ env auth_property auth_agent es,
      (runSeq (initClient env auth_property auth_agent).1 es).1.tokens.length =
      (runSeq (initClient env auth_property auth_agent).1 es).2.dedup.length) := by
  refine ⟨?_, ?_, ?_⟩
  · intro c e s hs hcov
    obtain ⟨t, htmem, hts⟩ := hcov
    have hsome : (findCachedToken c.tokens s).isSome := by
      unfold findCachedToken
      rw [List.find?_isSome]
      exact ⟨t, htmem, decide_eq_true hts⟩
    obtain ⟨t', ht'⟩ := Option.isSome_iff_exists.mp hsome
    unfold afterPrepare
    rw [prepare_request_cached hs ht']
  · intro c e s r c' hs hnone hok
    have hfind : findCachedToken c.tokens s = none := by
      unfold findCachedToken
      rw [List.find?_eq_none]
      intro t ht hp
      rw [decide_eq_true_eq] at hp
      exact hnone t ht hp
    obtain ⟨s1, hs1, hcase⟩ := prepare_request_ok_inv hok
    rw [hs] at hs1
    injection hs1 with hs1
    subst hs1
    rcases hcase with ⟨t, htf, _, _⟩ | ⟨_, p, creds, t, hp, hm, rfl, _⟩
    · rw [hfind] at htf
      cases htf
    · rcases mint_result_cases p creds s with hm' | ⟨i, sec, _, hm'⟩ <;>
        rw [hm'] at hm
      · exact absurd hm (by simp)
      · injection hm with hm
        subst hm
        exact ⟨_, rfl, rfl, rfl⟩
  · intro env ap aa es
    have h0 : GoodTokens ((initClient env ap aa).1).tokens := by
      constructor
      · intro t ht
        rw [show ((initClient env ap aa).1).tokens = [] from rfl] at ht
        exact absurd ht (List.not_mem_nil t)
      · rw [show ((initClient env ap aa).1).tokens = [] from rfl]
        exact List.nodup_nil
    obtain ⟨⟨_, hnd⟩, hmem⟩ := runSeq_inv es _ h0
    rw [← List.length_map (runSeq (initClient env ap aa).1 es).1.tokens
      Token.scope]
    apply nodup_length_eq_dedup_length hnd
    intro s
    rw [hmem s]
    rw [show ((initClient env ap aa).1).tokens = [] from rfl]
    simp

/-- Witness for C2: reuse leaves the one-token cache unchanged, a fresh
scope appends exactly one token, and on a four-call sequence (two listings
calls, one properties call, one failing call) the cache length equals the
number of distinct successful scopes. -/
theorem c2_one_token_per_scope_witness :
    afterPrepare clientBothAfterListings "listings/9" =
      clientBothAfterListings ∧
    (∃ t, clientBothAfterListings.tokens = clientBoth.tokens ++ [t] ∧
      t.scope = "api_listings_read" ∧ t.scopes = ["api_listings_read"]) ∧
    (runSeq (initClient (fun _ => none)
        (some (some "prop_id", some "prop_secret"))
        (some (some "agent_id", some "agent_secret"))).1
      ["listings/1", "listings/2", "properties/3", "bogus/4"]).1.tokens.length =
    (runSeq (initClient (fun _ => none)
        (some (some "prop_id", some "prop_secret"))
        (some (some "agent_id", some "agent_secret"))).1
      ["listings/1", "listings/2", "properties/3", "bogus/4"]).2.dedup.length :=
  ⟨c2_one_token_per_scope.1 clientBothAfterListings "listings/9"
      "api_listings_read" rfl ⟨listingsToken, by decide, by decide⟩,
   c2_one_token_per_scope.2.1 clientBoth "listings/123" "api_listings_read"
      (listingsToken.session, "https://api.domain.com.au/v1/listings/123")
      clientBothAfterListings rfl (by decide) rfl,
   c2_one_token_per_scope.2.2 (fun _ => none)
      (some (some "prop_id", some "prop_secret"))
      (some (some "agent_id", some "agent_secret"))
      ["listings/1", "listings/2", "properties/3", "bogus/4"]⟩

end DomainClient
